import Mathlib

/-!
Verification development for the "Infinite Cortex" browser exploration game
(React client in `src/App.tsx`, content provider in `src/services/geminiService.tsx`,
constants in `src/constants.ts`, shared types in `src/types.ts`).

The session state machine of `App.tsx` is shallowly embedded: React state updates
become pure functions on a `Session` value, and the two asynchronous pipelines
(tile content enrichment and puzzle generation) are represented by explicit
in-flight request queues whose resolutions are separate transition steps.
`Math.random()` draws are passed as explicit rational parameters in `[0,1)`;
rationals are written in lowest terms (`⟨num, den, _, _⟩`) so that all
comparisons compute by kernel reduction.  JavaScript strings are Lean `String`s;
the answer-normalisation pipeline of `PuzzleModal` works on `List Char` so that
`toLowerCase`, `trim` and `includes` stay structurally recursive.
-/

/-- Rational threshold 0.15 (biome cutoff for REALITY_NODE) in lowest terms. -/
def q015 : ℚ := ⟨3, 20, by decide, by norm_num [Nat.Coprime]⟩

/-- Rational threshold 0.36 (biome cutoff for QUANTUM_FLUX) in lowest terms. -/
def q036 : ℚ := ⟨9, 25, by decide, by norm_num [Nat.Coprime]⟩

/-- Rational threshold 0.57 (biome cutoff for SERVER_CITY) in lowest terms. -/
def q057 : ℚ := ⟨57, 100, by decide, by norm_num [Nat.Coprime]⟩

/-- Rational threshold 0.78 (biome cutoff for NEON_FOREST) in lowest terms. -/
def q078 : ℚ := ⟨39, 50, by decide, by norm_num [Nat.Coprime]⟩

/-- Rational threshold 0.7 (`hasPuzzle` cutoff: `Math.random() > 0.7`). -/
def q07 : ℚ := ⟨7, 10, by decide, by norm_num [Nat.Coprime]⟩

/-- Sample draw 0.1, used to instantiate `Math.random()` in concrete runs. -/
def q01 : ℚ := ⟨1, 10, by decide, by norm_num [Nat.Coprime]⟩

/-- Sample draw 0.2, used to instantiate `Math.random()` in concrete runs. -/
def q02 : ℚ := ⟨1, 5, by decide, by norm_num [Nat.Coprime]⟩

/-- Sample draw 0.9, used to instantiate `Math.random()` in concrete runs. -/
def q09 : ℚ := ⟨9, 10, by decide, by norm_num [Nat.Coprime]⟩

/-! ## Data model (`src/types.ts`, `src/constants.ts`) -/

/-- `BiomeType` enum from `types.ts`. -/
inductive BiomeType
  | DATA_WASTELAND
  | NEON_FOREST
  | SERVER_CITY
  | QUANTUM_FLUX
  | REALITY_NODE
deriving DecidableEq, Repr

/-- `Coordinates` from `types.ts`: an integer pair. -/
structure Coordinates where
  x : Int
  y : Int
deriving DecidableEq, Repr

/-- `TileData` from `types.ts`.  `item?` is optional in TS, hence `Option`. -/
structure TileData where
  id : String
  x : Int
  y : Int
  biome : BiomeType
  description : String
  explored : Bool
  hasPuzzle : Bool
  isSolved : Bool
  item : Option String
  visualFeature : String
deriving DecidableEq, Repr

/-- `PlayerState` from `types.ts`.  `xp` and `level` are non-negative JS
numbers that only ever take natural values, embedded as `Nat`. -/
structure PlayerState where
  position : Coordinates
  inventory : List String
  xp : Nat
  level : Nat
deriving DecidableEq, Repr

/-- Log severity: the `GameLog['type']` union of `types.ts` plus the literal
`'error'` that `App.tsx` also passes to `addLog` (save/load failure paths). -/
inductive LogType
  | info
  | success
  | warning
  | danger
  | error
deriving DecidableEq, Repr

/-- `GameLog` from `types.ts`. -/
structure GameLog where
  id : String
  timestamp : Int
  message : String
  type : LogType
deriving DecidableEq, Repr

/-- Puzzle kind union `'riddle' | 'logic' | 'reality_check'`. -/
inductive PuzzleType
  | riddle
  | logic
  | reality_check
deriving DecidableEq, Repr

/-- One entry of `groundingUrls`: `{title: string, uri: string}`. -/
structure GroundingUrl where
  title : String
  uri : String
deriving DecidableEq, Repr

/-- `Puzzle` from `types.ts` (well-typed fields, as consumed by `App.tsx`). -/
structure Puzzle where
  id : String
  question : String
  type : PuzzleType
  options : Option (List String)
  answer : String
  solved : Bool
  groundingUrls : Option (List GroundingUrl)
deriving DecidableEq, Repr

/-- The world mapping `Record<string, TileData>`.  The JS key is the string
`"x,y"`, which is in bijection with the integer pair, so the embedding keys
directly by `Coordinates`. -/
abbrev World := List (Coordinates × TileData)

/-- `GameState` from `types.ts`. -/
structure GameState where
  player : PlayerState
  world : World
  logs : List GameLog
  isGenerating : Bool
  activePuzzle : Option Puzzle
deriving DecidableEq, Repr

/-- The shape of a parsed save blob before `loadGame`'s validation: the two
top-level fields that `loadGame` checks (`player`, `world`) may be absent. -/
structure RawSave where
  player : Option PlayerState
  world : Option World
  logs : List GameLog
  isGenerating : Bool
  activePuzzle : Option Puzzle
deriving DecidableEq, Repr

/-- Identity + timestamp that `addLog` obtains from `crypto.randomUUID()` and
`Date.now()`; supplied as an explicit parameter of each logging operation. -/
structure LogMeta where
  id : String
  timestamp : Int
deriving DecidableEq, Repr

/-- Full client session: the React `gameState` plus the in-flight asynchronous
requests (tile enrichments and puzzle generations awaiting their backend
response) and the `localStorage` save slot. -/
structure Session where
  game : GameState
  enrichReqs : List Coordinates
  puzzleReqs : Nat
  saved : Option RawSave
deriving DecidableEq, Repr

/-- `XP_PER_PUZZLE` from `constants.ts`. -/
def XP_PER_PUZZLE : Nat := 100

/-- `XP_PER_LEVEL` from `constants.ts`. -/
def XP_PER_LEVEL : Nat := 500

/-- `INITIAL_LOG` from `constants.ts` (its timestamp is `Date.now()` at module
load, passed here as a parameter). -/
def INITIAL_LOG (ts : Int) : GameLog :=
  ⟨"init", ts, "System Initialized. Welcome to the Cortex. Use Arrow Keys to navigate.", .info⟩

/-! ## World mapping primitives -/

/-- Key lookup in the world record (`prev.world[id]`). -/
def wlookup : World → Coordinates → Option TileData
  | [], _ => none
  | (c', t) :: rest, c => if c = c' then some t else wlookup rest c

/-- Key overwrite in the world record (`{...prev.world, [id]: tile}`). -/
def wset : World → Coordinates → TileData → World
  | [], c, t => [(c, t)]
  | (c', t') :: rest, c, t =>
      if c = c' then (c, t) :: rest else (c', t') :: wset rest c t

/-- In-place field update of an existing tile
(`{...prev.world, [id]: {...prev.world[id], ...fields}}`; the call sites in
`App.tsx` only reach this with an existing tile, so an absent key is a no-op). -/
def wupdate (w : World) (c : Coordinates) (f : TileData → TileData) : World :=
  match wlookup w c with
  | none => w
  | some t => wset w c (f t)

/-- Remove one occurrence of a coordinate from the in-flight enrichment queue. -/
def eraseCoord : List Coordinates → Coordinates → List Coordinates
  | [], _ => []
  | a :: as, c => if a = c then as else a :: eraseCoord as c

/-! ## Session operations (`src/App.tsx`) -/

/-- `addLog` from `App.tsx`: append a log entry. -/
def mkLog (m : LogMeta) (msg : String) (ty : LogType) : GameLog :=
  ⟨m.id, m.timestamp, msg, ty⟩

/-- Append a log entry to the game state (`setGameState(prev => ({...prev, logs: [...prev.logs, newLog]}))`). -/
def addLog (m : LogMeta) (msg : String) (ty : LogType) (g : GameState) : GameState :=
  { g with logs := g.logs ++ [mkLog m msg ty] }

/-- The biome roll of `ensureTileExists` (lines 111-121): one uniform draw
against the documented cumulative thresholds. -/
def rollBiome (r1 : ℚ) : BiomeType :=
  if r1 < q015 then BiomeType.REALITY_NODE
  else if r1 < q036 then BiomeType.QUANTUM_FLUX
  else if r1 < q057 then BiomeType.SERVER_CITY
  else if r1 < q078 then BiomeType.NEON_FOREST
  else BiomeType.DATA_WASTELAND

/-- The freshly created tile of `ensureTileExists` (lines 123-136):
`hasPuzzle = biome === REALITY_NODE || Math.random() > 0.7`, pending content
sentinels, unsolved. -/
def rollTile (r1 r2 : ℚ) (x y : Int) : TileData :=
  ⟨toString x ++ "," ++ toString y, x, y, rollBiome r1, "Scanning...", false,
    decide (rollBiome r1 = BiomeType.REALITY_NODE) || decide (r2 > q07), false, none, "..."⟩

/-- `ensureTileExists` from `App.tsx` (lines 106-143).  `r1` is the
`Math.random()` draw deciding the biome, `r2` the draw for `hasPuzzle`
(short-circuited away on a reality node). -/
def ensureTileExists (r1 r2 : ℚ) (x y : Int) (g : GameState) : GameState :=
  match wlookup g.world ⟨x, y⟩ with
  | some _ => g
  | none => { g with world := wset g.world ⟨x, y⟩ (rollTile r1 r2 x y) }

/-- The `for dy / for dx` loop order of the tile-generation `useEffect`
(radius 1 around the player). -/
def offsets : List (Int × Int) :=
  [(-1, -1), (0, -1), (1, -1), (-1, 0), (0, 0), (1, 0), (-1, 1), (0, 1), (1, 1)]

/-- Run `ensureTileExists` over a list of offsets relative to position `p`,
drawing randomness for each coordinate from `rnd`. -/
def ensureList (rnd : Coordinates → ℚ × ℚ) (p : Coordinates) :
    List (Int × Int) → GameState → GameState
  | [], g => g
  | off :: rest, g =>
      let cx := p.x + off.1
      let cy := p.y + off.2
      ensureList rnd p rest (ensureTileExists (rnd ⟨cx, cy⟩).1 (rnd ⟨cx, cy⟩).2 cx cy g)

/-- The synchronous head of `enrichTileContent` (lines 145-162), up to the
`await`: the first `setGameState` leaves the state alone when the tile already
has real content and otherwise raises `isGenerating`; the guard then either
aborts (clearing `isGenerating`, no request) or lets the request go out.
Returns the updated state and whether a backend request was fired. -/
def enrichTileStart (g : GameState) (c : Coordinates) : GameState × Bool :=
  let g1 :=
    match wlookup g.world c with
    | some t => if t.description ≠ "Scanning..." then g else { g with isGenerating := true }
    | none => { g with isGenerating := true }
  match wlookup g1.world c with
  | none => ({ g1 with isGenerating := false }, false)
  | some t =>
      if t.description ≠ "Scanning..." then ({ g1 with isGenerating := false }, false)
      else (g1, true)

/-- Whether the tile at `c` still carries the pending sentinel description. -/
def tileIsPendingB (g : GameState) (c : Coordinates) : Bool :=
  match wlookup g.world c with
  | some t => t.description == "Scanning..."
  | none => false

/-- The tile-generation `useEffect` of `App.tsx` (lines 205-214): materialise
the 9 tiles around the player's position, then start enrichment of the
player's own tile.  A fired request is queued on the session. -/
def applyEffect (rnd : Coordinates → ℚ × ℚ) (s : Session) : Session :=
  let p := s.game.player.position
  let g1 := ensureList rnd p offsets s.game
  let r := enrichTileStart g1 p
  { s with
    game := r.1
    enrichReqs := if r.2 then s.enrichReqs ++ [p] else s.enrichReqs }

/-- `movePlayer` (lines 186-203) followed by the position-triggered
`useEffect`: rejected if and only if `activePuzzle` is attached; otherwise
translate the position by the delta, then regenerate/enrich around it. -/
def movePlayer (s : Session) (dx dy : Int) (rnd : Coordinates → ℚ × ℚ) : Session :=
  match s.game.activePuzzle with
  | some _ => s
  | none =>
      let g := s.game
      let pos' : Coordinates := ⟨g.player.position.x + dx, g.player.position.y + dy⟩
      applyEffect rnd { s with game := { g with player := { g.player with position := pos' } } }

/-- Resolution of one in-flight enrichment request (the code after the `await`
in `enrichTileContent`, lines 164-181): write the delivered description and
visual feature into the tile unconditionally, clear `isGenerating`, append the
sector log.  (`generateTileContent` always resolves, so the `catch` arm is
dead.)  A coordinate not in the queue has no pending response and is a no-op. -/
def resolveEnrichReq (s : Session) (c : Coordinates) (d v : String) (m : LogMeta) : Session :=
  if c ∈ s.enrichReqs then
    let g1 : GameState :=
      { s.game with
        isGenerating := false
        world := wupdate s.game.world c (fun t => { t with description := d, visualFeature := v }) }
    let g2 := addLog m ("Sector [" ++ toString c.x ++ "," ++ toString c.y ++ "]: " ++ d) .info g1
    { s with game := g2, enrichReqs := eraseCoord s.enrichReqs c }
  else s

/-- `handleTileClick` (lines 218-258), up to the `await` of the puzzle
branch: the distance guard, the puzzle-generation kickoff (which queues an
in-flight request), the "move closer" rejection and the inspection log.
The `none` tile arm is the would-be `TypeError` dereference of an absent
tile; it is proved unreachable for clicks within distance 1 (claim C10). -/
def handleTileClick (s : Session) (x y : Int) (m : LogMeta) : Session :=
  let g := s.game
  let dist := (x - g.player.position.x).natAbs + (y - g.player.position.y).natAbs
  if dist > 1 then
    { s with game := addLog m "Target out of range." .warning g }
  else
    match wlookup g.world ⟨x, y⟩ with
    | none => s
    | some tile =>
        if tile.hasPuzzle && !tile.isSolved then
          if dist = 0 then
            { s with
              game := { addLog m "Interfacing with node logic..." .info g with isGenerating := true }
              puzzleReqs := s.puzzleReqs + 1 }
          else
            { s with game := addLog m "Move closer to interface." .warning g }
        else
          { s with
            game := addLog m ("Inspecting " ++ tile.visualFeature ++ ": " ++ tile.description) .info g }

/-- Resolution of one in-flight puzzle generation (the code after the `await`
in `handleTileClick`): attach the delivered puzzle and clear the busy flag.
(`generatePuzzle` always resolves, so the `catch` arm is dead.) -/
def resolvePuzzleReq (s : Session) (p : Puzzle) : Session :=
  match s.puzzleReqs with
  | 0 => s
  | n + 1 =>
      { s with
        game := { s.game with activePuzzle := some p, isGenerating := false }
        puzzleReqs := n }

/-! ### Answer checking (`PuzzleModal.handleSubmit`) -/

/-- JS `String.prototype.toLowerCase` on the character list (ASCII case map,
as `Char.toLower`). -/
def lowerL (l : List Char) : List Char := l.map Char.toLower

/-- JS `String.prototype.trim` on the character list. -/
def trimL (l : List Char) : List Char :=
  ((l.dropWhile Char.isWhitespace).reverse.dropWhile Char.isWhitespace).reverse

/-- Does `needle` occur at the head of `hay`? -/
def leadsWith : List Char → List Char → Bool
  | _, [] => true
  | [], _ :: _ => false
  | a :: as, b :: bs => a == b && leadsWith as bs

/-- JS `String.prototype.includes`: does `needle` occur contiguously in `hay`? -/
def hasSub : List Char → List Char → Bool
  | [], needle => needle.isEmpty
  | a :: rest, needle => leadsWith (a :: rest) needle || hasSub rest needle

/-- The normalisation of `PuzzleModal.handleSubmit`: `toLowerCase().trim()`. -/
def normalizeAns (s : String) : List Char := trimL (lowerL s.toList)

/-- The acceptance test of `PuzzleModal.handleSubmit` (lines 585-600):
`normalizedInput === normalizedCorrect || normalizedInput.includes(normalizedCorrect)`. -/
def checkAnswer (p : Puzzle) (input : String) : Bool :=
  let normalizedInput := normalizeAns input
  let normalizedCorrect := normalizeAns p.answer
  decide (normalizedInput = normalizedCorrect) || hasSub normalizedInput normalizedCorrect

/-- `handlePuzzleSolve` (lines 260-305).  `m1` is the log identity for the
reward entry, `m2` for the level-up entry (appended by the `setTimeout`). -/
def handlePuzzleSolve (s : Session) (success : Bool) (m1 m2 : LogMeta) : Session :=
  match success, s.game.activePuzzle with
  | true, some _ =>
      let g := s.game
      let pos := g.player.position
      let newXp := g.player.xp + XP_PER_PUZZLE
      let newLevel := newXp / XP_PER_LEVEL + 1
      let g1 : GameState :=
        { g with
          activePuzzle := none
          player := { g.player with xp := newXp, level := newLevel }
          world := wupdate g.world pos (fun t => { t with isSolved := true }) }
      let g2 := addLog m1
        ("Logic Gate Bypassed. Data extracted (+" ++ toString XP_PER_PUZZLE ++ " XP).") .success g1
      let g3 :=
        if g.player.level < newLevel then
          addLog m2
            ("*** SYSTEM UPGRADE *** LEVEL " ++ toString newLevel ++
              " REACHED. Processing power increased.") .success g2
        else g2
      { s with game := g3 }
  | _, _ =>
      { s with game := addLog m1 "Interface closed." .warning { s.game with activePuzzle := none } }

/-- A submission through the modal: on a match, `onSolve(true)` fires (after
the feedback timeout); on a mismatch only the local `INCORRECT` feedback is
shown and the session is untouched. -/
def submitAnswer (s : Session) (input : String) (m1 m2 : LogMeta) : Session :=
  match s.game.activePuzzle with
  | none => s
  | some p => if checkAnswer p input then handlePuzzleSolve s true m1 m2 else s

/-- The modal's close button (`onClose`): detach the puzzle, nothing else. -/
def closePuzzle (s : Session) : Session :=
  { s with game := { s.game with activePuzzle := none } }

/-- `saveGame` (lines 62-75): serialise the current state with
`isGenerating` forced to `false`, then append the success log (the log entry
is appended after serialisation, so it is not part of the blob). -/
def saveGame (s : Session) (m : LogMeta) : Session :=
  let blob : RawSave :=
    ⟨some s.game.player, some s.game.world, s.game.logs, false, s.game.activePuzzle⟩
  { s with
    saved := some blob
    game := addLog m "SYSTEM BACKUP COMPLETE. [STATE SAVED]" .success s.game }

/-- `loadGame` (lines 77-97) against an arbitrary parsed payload: no stored
blob is a warning; a blob lacking `player` or `world` throws and is caught
(error log, in-memory state untouched); otherwise the parsed state replaces
the session and the restore log is appended. -/
def loadGameRaw (g : GameState) (payload : Option RawSave) (m : LogMeta) : GameState :=
  match payload with
  | none => addLog m "NO BACKUP FOUND IN LOCAL STORAGE." .warning g
  | some r =>
      match r.player, r.world with
      | some p, some w =>
          addLog m "SYSTEM RESTORED FROM BACKUP. [STATE LOADED]" .success
            ⟨p, w, r.logs, r.isGenerating, r.activePuzzle⟩
      | _, _ => addLog m "RESTORE FAILED: CORRUPT DATA." .error g

/-- `loadGame` at the session level.  On a successful restore the player
position object is replaced, so the tile-generation `useEffect` re-runs. -/
def loadGame (s : Session) (m : LogMeta) (rnd : Coordinates → ℚ × ℚ) : Session :=
  match s.saved with
  | none => { s with game := loadGameRaw s.game none m }
  | some r =>
      match r.player, r.world with
      | some _, some _ => applyEffect rnd { s with game := loadGameRaw s.game (some r) m }
      | _, _ => { s with game := loadGameRaw s.game (some r) m }

/-- The initial `useState` value of `App.tsx` (lines 15-26). -/
def initialGameState (ts : Int) : GameState :=
  ⟨⟨⟨0, 0⟩, [], 0, 1⟩, [], [INITIAL_LOG ts], false, none⟩

/-- The session right after mount: the initial state with the first run of the
tile-generation effect applied. -/
def initSession (rnd : Coordinates → ℚ × ℚ) (ts : Int) : Session :=
  applyEffect rnd ⟨initialGameState ts, [], 0, none⟩

/-! ## The transition system -/

/-- One observable transition of the client session: a user intent (move,
click, answer submission, modal close, save, load) or the resolution of an
in-flight asynchronous request.  All guards live inside the operation
definitions, mirroring the source. -/
inductive Step : Session → Session → Prop
  | move (s : Session) (dx dy : Int) (rnd : Coordinates → ℚ × ℚ) :
      Step s (movePlayer s dx dy rnd)
  | click (s : Session) (x y : Int) (m : LogMeta) :
      Step s (handleTileClick s x y m)
  | enrichDone (s : Session) (c : Coordinates) (d v : String) (m : LogMeta) :
      Step s (resolveEnrichReq s c d v m)
  | puzzleDone (s : Session) (p : Puzzle) :
      Step s (resolvePuzzleReq s p)
  | answer (s : Session) (input : String) (m1 m2 : LogMeta) :
      Step s (submitAnswer s input m1 m2)
  | closeModal (s : Session) :
      Step s (closePuzzle s)
  | saveSlot (s : Session) (m : LogMeta) :
      Step s (saveGame s m)
  | loadSlot (s : Session) (m : LogMeta) (rnd : Coordinates → ℚ × ℚ) :
      Step s (loadGame s m rnd)

/-- Sessions reachable from app start through any sequence of transitions. -/
inductive Reachable : Session → Prop
  | init (rnd : Coordinates → ℚ × ℚ) (ts : Int) : Reachable (initSession rnd ts)
  | step {s s' : Session} : Reachable s → Step s s' → Reachable s'

/-! ## Content provider (`src/services/geminiService.tsx`) -/

/-- Parsed JSON values, the result of `JSON.parse` on a backend response. -/
inductive Json
  | null
  | bool (b : Bool)
  | num (n : Int)
  | str (s : String)
  | arr (xs : List Json)
  | obj (fields : List (String × Json))

/-- Member lookup on a parsed JSON object (`data.field`); `undefined` is
`none`.  Parsed JS objects have unique keys, so first match suffices. -/
def jget : Json → String → Option Json
  | .obj fields, k => lookupField fields k
  | _, _ => none
where
  lookupField : List (String × Json) → String → Option Json
    | [], _ => none
    | (k', v) :: rest, k => if k = k' then some v else lookupField rest k

/-- Outcome of one `generateContent` round trip, as seen after the `await`
and `JSON.parse`: a thrown transport error, a missing/empty `response.text`,
unparseable text, or a successfully parsed JSON value. -/
inductive BackendResp
  | transportFail
  | noText
  | badJson
  | goodJson (j : Json)

/-- The fixed fallback pair of `generateTileContent`. -/
def fallbackContent : Json :=
  .obj [("description", .str "Static interference blocks your sensors."),
        ("visualFeature", .str "Glitch")]

/-- `generateTileContent` (service lines 15-57): any throw inside the `try`
(transport failure, absent text, `JSON.parse` throw) yields the fallback;
otherwise the parsed value is returned as-is, with no structural validation. -/
def generateTileContent : BackendResp → Json
  | .transportFail => fallbackContent
  | .noText => fallbackContent
  | .badJson => fallbackContent
  | .goodJson j => j

/-- The value `generatePuzzle` builds for the non-reality biomes: fields are
read straight off the parsed object, so each may be `undefined`. -/
structure GenPuzzle where
  id : String
  question : Option Json
  type : Option Json
  options : Option Json
  answer : Option Json
  solved : Bool

/-- Build the returned puzzle record from parsed data (service lines 89-96). -/
def puzzleFromData (uuid : String) (j : Json) : GenPuzzle :=
  ⟨uuid, jget j "question", jget j "type", jget j "options", jget j "answer", false⟩

/-- The fixed fallback puzzle of `generatePuzzle` (service lines 98-105). -/
def fallbackPuzzle (uuid : String) : GenPuzzle :=
  ⟨uuid, some (.str "404 Puzzle Not Found. What is 2 + 2?"), some (.str "logic"),
    none, some (.str "4"), false⟩

/-- `generatePuzzle`'s non-reality path (service lines 66-106):
`JSON.parse(response.text || '{}')` parses absent text as the empty object
(so missing text does NOT reach the catch arm), a parse throw or transport
failure yields the fallback, and a parsed value is destructured with no
validation. -/
def generatePuzzleCore (uuid : String) : BackendResp → GenPuzzle
  | .transportFail => fallbackPuzzle uuid
  | .noText => puzzleFromData uuid (.obj [])
  | .badJson => fallbackPuzzle uuid
  | .goodJson j => puzzleFromData uuid j

/-- One grounding chunk's `web` payload (`title`/`uri` both optional). -/
structure ChunkWeb where
  title : Option String
  uri : Option String
deriving DecidableEq, Repr

/-- One entry of `candidates[0].groundingMetadata.groundingChunks`. -/
structure GroundingChunk where
  web : Option ChunkWeb
deriving DecidableEq, Repr

/-- JS truthiness of an optional string (`undefined` and `''` are falsy). -/
def jsTruthy : Option String → Bool
  | none => false
  | some s => !(s == "")

/-- The filter `c => c.web?.uri` of `generateRealityPuzzle`. -/
def chunkKeep (c : GroundingChunk) : Bool :=
  match c.web with
  | none => false
  | some w => jsTruthy w.uri

/-- The map `c => ({title: c.web.title || 'Source', uri: c.web.uri})`; only
applied to chunks that passed `chunkKeep`, whose `web` and `uri` are present. -/
def chunkUrl (c : GroundingChunk) : GroundingUrl :=
  match c.web with
  | some w =>
      ⟨match w.title with
       | some t => if t == "" then "Source" else t
       | none => "Source",
       w.uri.getD ""⟩
  | none => ⟨"Source", ""⟩

/-- Citation extraction of `generateRealityPuzzle` (service lines 142-145). -/
def extractUrls (chunks : List GroundingChunk) : List GroundingUrl :=
  (chunks.filter chunkKeep).map chunkUrl

/-- The parsed success payload of the grounded request:
`{question, correctAnswer, wrongOptions}` with `wrongOptions` possibly absent
(`data.wrongOptions || []`). -/
structure RealityData where
  question : String
  correctAnswer : String
  wrongOptions : Option (List String)
deriving DecidableEq, Repr

/-- `generateRealityPuzzle`'s success path (service lines 114-157).  The
inconsistent-comparator `sort(() => Math.random() - 0.5)` is passed in as the
`shuffle` argument; JS `Array.prototype.sort` always returns some permutation
of its input, captured as a hypothesis in the theorems below. -/
def generateRealityPuzzle (uuid : String) (shuffle : List String → List String)
    (data : RealityData) (chunks : List GroundingChunk) : Puzzle :=
  let allOptions := shuffle ((data.wrongOptions.getD []) ++ [data.correctAnswer])
  ⟨uuid, "[REALITY CHECK]\n" ++ data.question, .reality_check, some allOptions,
    data.correctAnswer, false, some (extractUrls chunks)⟩

/-- `generateRealityPuzzle`'s catch arm (service lines 159-168): the fallback
puzzle whose answer is the current calendar year. -/
def fallbackRealityPuzzle (uuid : String) (year : Nat) : Puzzle :=
  ⟨uuid, "The Reality Link is unstable. What year is it currently?", .reality_check,
    none, toString year, false, none⟩

/-! ## Basic lemmas about the world mapping -/

theorem wlookup_wset (w : World) (c c' : Coordinates) (t : TileData) :
    wlookup (wset w c t) c' = if c' = c then some t else wlookup w c' := by
  induction w with
  | nil => simp only [wset, wlookup]
  | cons p rest ih =>
      obtain ⟨c₀, t₀⟩ := p
      by_cases h1 : c = c₀
      · subst h1
        simp only [wset, if_pos rfl, wlookup]
        by_cases h2 : c' = c <;> simp [h2]
      · simp only [wset, if_neg h1, wlookup, ih]
        by_cases h2 : c' = c₀
        · subst h2
          have h3 : ¬c' = c := fun h => h1 (h.symm)
          simp [h3]
        · simp [h2]

theorem wlookup_wupdate (w : World) (c₀ c : Coordinates) (f : TileData → TileData) :
    wlookup (wupdate w c₀ f) c =
      if c = c₀ then (wlookup w c₀).map f else wlookup w c := by
  unfold wupdate
  cases h : wlookup w c₀ with
  | none =>
      by_cases hc : c = c₀ <;> simp [hc]
      exact h
  | some t =>
      rw [wlookup_wset]
      by_cases hc : c = c₀ <;> simp [hc]

/-! ## Lemmas about tile creation and the generation effect -/

theorem rollTile_realityOk (r1 r2 : ℚ) (x y : Int) :
    (rollTile r1 r2 x y).biome = BiomeType.REALITY_NODE → (rollTile r1 r2 x y).hasPuzzle = true := by
  intro h
  simp only [rollTile] at h ⊢
  simp [h]

theorem ensureTileExists_of_some {g : GameState} {x y : Int} {t : TileData}
    (h : wlookup g.world ⟨x, y⟩ = some t) (r1 r2 : ℚ) :
    ensureTileExists r1 r2 x y g = g := by
  unfold ensureTileExists
  simp [h]

theorem ensureTileExists_world_eq (r1 r2 : ℚ) (x y : Int) (g : GameState) :
    ensureTileExists r1 r2 x y g = { g with world := (ensureTileExists r1 r2 x y g).world } := by
  unfold ensureTileExists
  cases h : wlookup g.world ⟨x, y⟩ <;> simp

theorem ensureTileExists_preserves {g : GameState} {c : Coordinates} {t : TileData}
    (h : wlookup g.world c = some t) (r1 r2 : ℚ) (x y : Int) :
    wlookup (ensureTileExists r1 r2 x y g).world c = some t := by
  unfold ensureTileExists
  cases h0 : wlookup g.world ⟨x, y⟩ with
  | some _ => simpa using h
  | none =>
      simp only [wlookup_wset]
      split
      · next heq => rw [heq, h0] at h; cases h
      · exact h

theorem ensureTileExists_isSome (r1 r2 : ℚ) (x y : Int) (g : GameState) :
    (wlookup (ensureTileExists r1 r2 x y g).world ⟨x, y⟩).isSome = true := by
  unfold ensureTileExists
  cases h0 : wlookup g.world ⟨x, y⟩ with
  | some _ => simp [h0]
  | none => simp [wlookup_wset]

theorem ensureTileExists_lookup_cases {g : GameState} {r1 r2 : ℚ} {x y : Int}
    {c : Coordinates} {t : TileData}
    (h : wlookup (ensureTileExists r1 r2 x y g).world c = some t) :
    wlookup g.world c = some t ∨
      (t.description = "Scanning..." ∧ t.isSolved = false ∧
        (t.biome = BiomeType.REALITY_NODE → t.hasPuzzle = true)) := by
  revert h
  unfold ensureTileExists
  cases h0 : wlookup g.world ⟨x, y⟩ with
  | some _ => exact Or.inl
  | none =>
      intro h
      simp only [wlookup_wset] at h
      split at h
      · cases h
        exact Or.inr ⟨rfl, rfl, rollTile_realityOk r1 r2 x y⟩
      · exact Or.inl h

theorem ensureList_game_eq (rnd : Coordinates → ℚ × ℚ) (p : Coordinates)
    (l : List (Int × Int)) (g : GameState) :
    ensureList rnd p l g = { g with world := (ensureList rnd p l g).world } := by
  induction l generalizing g with
  | nil => rfl
  | cons off rest ih =>
      rw [ensureList, ih]
      rw [ensureTileExists_world_eq (rnd ⟨p.x + off.1, p.y + off.2⟩).1]

theorem ensureList_preserves {g : GameState} {c : Coordinates} {t : TileData}
    (h : wlookup g.world c = some t) (rnd : Coordinates → ℚ × ℚ) (p : Coordinates)
    (l : List (Int × Int)) :
    wlookup (ensureList rnd p l g).world c = some t := by
  induction l generalizing g with
  | nil => exact h
  | cons off rest ih =>
      rw [ensureList]
      exact ih (ensureTileExists_preserves h _ _ _ _)

theorem ensureList_isSome_mono {g : GameState} {c : Coordinates}
    (h : (wlookup g.world c).isSome = true) (rnd : Coordinates → ℚ × ℚ) (p : Coordinates)
    (l : List (Int × Int)) :
    (wlookup (ensureList rnd p l g).world c).isSome = true := by
  cases h0 : wlookup g.world c with
  | none => rw [h0] at h; cases h
  | some t => rw [ensureList_preserves h0]; rfl

theorem ensureList_mem_isSome (rnd : Coordinates → ℚ × ℚ) (p : Coordinates)
    {l : List (Int × Int)} {d e : Int} (h : (d, e) ∈ l) (g : GameState) :
    (wlookup (ensureList rnd p l g).world ⟨p.x + d, p.y + e⟩).isSome = true := by
  induction l generalizing g with
  | nil => cases h
  | cons off rest ih =>
      rw [ensureList]
      rcases List.mem_cons.mp h with h1 | h1
      · cases h1
        exact ensureList_isSome_mono (ensureTileExists_isSome _ _ _ _ _) rnd p rest
      · exact ih h1 _

theorem ensureList_lookup_cases {rnd : Coordinates → ℚ × ℚ} {p : Coordinates}
    {l : List (Int × Int)} {g : GameState} {c : Coordinates} {t : TileData}
    (h : wlookup (ensureList rnd p l g).world c = some t) :
    wlookup g.world c = some t ∨
      (t.description = "Scanning..." ∧ t.isSolved = false ∧
        (t.biome = BiomeType.REALITY_NODE → t.hasPuzzle = true)) := by
  induction l generalizing g with
  | nil => exact Or.inl h
  | cons off rest ih =>
      rw [ensureList] at h
      rcases ih h with h1 | h1
      · exact ensureTileExists_lookup_cases h1
      · exact Or.inr h1

theorem enrichTileStart_eq (g : GameState) (c : Coordinates) :
    enrichTileStart g c = ({ g with isGenerating := tileIsPendingB g c }, tileIsPendingB g c) := by
  unfold enrichTileStart tileIsPendingB
  cases h0 : wlookup g.world c with
  | none => simp [h0]
  | some t =>
      by_cases hd : t.description = "Scanning..."
      · simp [h0, hd]
      · have hb : (t.description == "Scanning...") = false := by
          simpa using hd
        simp [h0, hd, hb]

theorem ensureTileExists_components (r1 r2 : ℚ) (x y : Int) (g : GameState) :
    (ensureTileExists r1 r2 x y g).player = g.player ∧
    (ensureTileExists r1 r2 x y g).logs = g.logs ∧
    (ensureTileExists r1 r2 x y g).isGenerating = g.isGenerating ∧
    (ensureTileExists r1 r2 x y g).activePuzzle = g.activePuzzle := by
  unfold ensureTileExists
  cases h : wlookup g.world ⟨x, y⟩ <;> simp

theorem ensureList_components (rnd : Coordinates → ℚ × ℚ) (p : Coordinates)
    (l : List (Int × Int)) (g : GameState) :
    (ensureList rnd p l g).player = g.player ∧
    (ensureList rnd p l g).logs = g.logs ∧
    (ensureList rnd p l g).isGenerating = g.isGenerating ∧
    (ensureList rnd p l g).activePuzzle = g.activePuzzle := by
  induction l generalizing g with
  | nil => exact ⟨rfl, rfl, rfl, rfl⟩
  | cons off rest ih =>
      rw [ensureList]
      obtain ⟨h1, h2, h3, h4⟩ := ih (ensureTileExists (rnd ⟨p.x + off.1, p.y + off.2⟩).1
        (rnd ⟨p.x + off.1, p.y + off.2⟩).2 (p.x + off.1) (p.y + off.2) g)
      obtain ⟨e1, e2, e3, e4⟩ := ensureTileExists_components
        (rnd ⟨p.x + off.1, p.y + off.2⟩).1 (rnd ⟨p.x + off.1, p.y + off.2⟩).2
        (p.x + off.1) (p.y + off.2) g
      exact ⟨h1.trans e1, h2.trans e2, h3.trans e3, h4.trans e4⟩

theorem applyEffect_components (rnd : Coordinates → ℚ × ℚ) (s : Session) :
    (applyEffect rnd s).game.player = s.game.player ∧
    (applyEffect rnd s).game.world =
      (ensureList rnd s.game.player.position offsets s.game).world ∧
    (applyEffect rnd s).game.logs = s.game.logs ∧
    (applyEffect rnd s).game.activePuzzle = s.game.activePuzzle ∧
    (applyEffect rnd s).game.isGenerating =
      tileIsPendingB (ensureList rnd s.game.player.position offsets s.game)
        s.game.player.position := by
  obtain ⟨h1, h2, h3, h4⟩ :=
    ensureList_components rnd s.game.player.position offsets s.game
  simp only [applyEffect, enrichTileStart_eq]
  exact ⟨h1, trivial, h2, h4, trivial⟩

theorem applyEffect_reqs (rnd : Coordinates → ℚ × ℚ) (s : Session) :
    (applyEffect rnd s).puzzleReqs = s.puzzleReqs ∧ (applyEffect rnd s).saved = s.saved := by
  unfold applyEffect
  exact ⟨rfl, rfl⟩

/-- Invariant: a reality-node tile always carries a puzzle. -/
def WorldOk (w : World) : Prop :=
  ∀ c t, wlookup w c = some t → t.biome = BiomeType.REALITY_NODE → t.hasPuzzle = true

/-- Invariant: every coordinate within Chebyshev radius 1 of `p` is
materialised in `w`. -/
def RadiusOkAt (w : World) (p : Coordinates) : Prop :=
  ∀ x y : Int, (x - p.x).natAbs ≤ 1 → (y - p.y).natAbs ≤ 1 →
    (wlookup w ⟨x, y⟩).isSome = true

/-- Combined per-snapshot invariant. -/
def GOk (g : GameState) : Prop := WorldOk g.world ∧ RadiusOkAt g.world g.player.position

/-- The save slot only ever holds blobs of invariant-satisfying snapshots. -/
def RawOk (r : RawSave) : Prop :=
  ∀ p w, r.player = some p → r.world = some w → WorldOk w ∧ RadiusOkAt w p.position

/-- Full session invariant. -/
def SessionOk (s : Session) : Prop := GOk s.game ∧ ∀ r, s.saved = some r → RawOk r

theorem mem_offsets {d e : Int} (hd : d.natAbs ≤ 1) (he : e.natAbs ≤ 1) :
    (d, e) ∈ offsets := by
  have hd' : d = -1 ∨ d = 0 ∨ d = 1 := by omega
  have he' : e = -1 ∨ e = 0 ∨ e = 1 := by omega
  rcases hd' with h | h | h <;> rcases he' with h' | h' | h' <;>
    subst h <;> subst h' <;> simp [offsets]

theorem ensureList_worldOk {g : GameState} (h : WorldOk g.world)
    (rnd : Coordinates → ℚ × ℚ) (p : Coordinates) (l : List (Int × Int)) :
    WorldOk (ensureList rnd p l g).world := by
  intro c t hl hb
  rcases ensureList_lookup_cases hl with h1 | h1
  · exact h c t h1 hb
  · exact h1.2.2 hb

set_option maxHeartbeats 2000000 in
theorem ensureList_offsets_radius (rnd : Coordinates → ℚ × ℚ) (p : Coordinates)
    (g : GameState) :
    RadiusOkAt (ensureList rnd p offsets g).world p := by
  intro x y hx hy
  have hmem : (x - p.x, y - p.y) ∈ offsets := mem_offsets hx hy
  have h1 := ensureList_mem_isSome rnd p hmem g
  have hc : (⟨p.x + (x - p.x), p.y + (y - p.y)⟩ : Coordinates) = ⟨x, y⟩ := by
    congr 1 <;> ring
  rwa [hc] at h1

theorem applyEffect_gok (rnd : Coordinates → ℚ × ℚ) {s : Session}
    (h : WorldOk s.game.world) : GOk (applyEffect rnd s).game := by
  obtain ⟨hp, hw, _, _, _⟩ := applyEffect_components rnd s
  refine ⟨?_, ?_⟩
  · rw [hw]
    exact ensureList_worldOk h rnd s.game.player.position offsets
  · rw [hw, hp]
    exact ensureList_offsets_radius rnd s.game.player.position s.game

/-! ## Per-operation component lemmas -/

theorem handleTileClick_components (s : Session) (x y : Int) (m : LogMeta) :
    (handleTileClick s x y m).game.world = s.game.world ∧
    (handleTileClick s x y m).game.player = s.game.player ∧
    (handleTileClick s x y m).saved = s.saved := by
  unfold handleTileClick addLog
  dsimp only
  split
  · exact ⟨rfl, rfl, rfl⟩
  · split
    · exact ⟨rfl, rfl, rfl⟩
    · split
      · split
        · exact ⟨rfl, rfl, rfl⟩
        · exact ⟨rfl, rfl, rfl⟩
      · exact ⟨rfl, rfl, rfl⟩

theorem wupdate_isSome (w : World) (c₀ c : Coordinates) (f : TileData → TileData) :
    (wlookup (wupdate w c₀ f) c).isSome = (wlookup w c).isSome := by
  rw [wlookup_wupdate]
  split
  · next h => subst h; cases wlookup w c <;> rfl
  · rfl

theorem wupdate_worldOk {w : World} (h : WorldOk w) (c₀ : Coordinates)
    {f : TileData → TileData}
    (hf : ∀ t, (f t).biome = t.biome ∧ (f t).hasPuzzle = t.hasPuzzle) :
    WorldOk (wupdate w c₀ f) := by
  intro c t hl hb
  rw [wlookup_wupdate] at hl
  split at hl
  · cases h0 : wlookup w c₀ with
    | none => rw [h0] at hl; cases hl
    | some t₀ =>
        rw [h0] at hl
        cases hl
        have := hf t₀
        rw [this.1] at hb
        rw [this.2]
        exact h _ _ h0 hb
  · exact h _ _ hl hb

theorem resolveEnrichReq_components (s : Session) (c₀ : Coordinates) (d v : String)
    (m : LogMeta) :
    ((resolveEnrichReq s c₀ d v m).game.world = s.game.world ∨
      (resolveEnrichReq s c₀ d v m).game.world =
        wupdate s.game.world c₀ (fun t => { t with description := d, visualFeature := v })) ∧
    (resolveEnrichReq s c₀ d v m).game.player = s.game.player ∧
    (resolveEnrichReq s c₀ d v m).saved = s.saved := by
  unfold resolveEnrichReq addLog
  dsimp only
  split
  · exact ⟨Or.inr rfl, rfl, rfl⟩
  · exact ⟨Or.inl rfl, rfl, rfl⟩

theorem resolvePuzzleReq_components (s : Session) (p : Puzzle) :
    (resolvePuzzleReq s p).game.world = s.game.world ∧
    (resolvePuzzleReq s p).game.player = s.game.player ∧
    (resolvePuzzleReq s p).saved = s.saved := by
  unfold resolvePuzzleReq
  split
  · exact ⟨rfl, rfl, rfl⟩
  · exact ⟨rfl, rfl, rfl⟩

theorem handlePuzzleSolve_components (s : Session) (success : Bool) (m1 m2 : LogMeta) :
    ((handlePuzzleSolve s success m1 m2).game.world = s.game.world ∨
      (handlePuzzleSolve s success m1 m2).game.world =
        wupdate s.game.world s.game.player.position (fun t => { t with isSolved := true })) ∧
    (handlePuzzleSolve s success m1 m2).game.player.position = s.game.player.position ∧
    (handlePuzzleSolve s success m1 m2).saved = s.saved := by
  unfold handlePuzzleSolve addLog
  dsimp only
  split
  · refine ⟨Or.inr ?_, ?_, ?_⟩ <;> split <;> rfl
  · exact ⟨Or.inl rfl, rfl, rfl⟩

theorem submitAnswer_components (s : Session) (input : String) (m1 m2 : LogMeta) :
    ((submitAnswer s input m1 m2).game.world = s.game.world ∨
      (submitAnswer s input m1 m2).game.world =
        wupdate s.game.world s.game.player.position (fun t => { t with isSolved := true })) ∧
    (submitAnswer s input m1 m2).game.player.position = s.game.player.position ∧
    (submitAnswer s input m1 m2).saved = s.saved := by
  unfold submitAnswer
  split
  · exact ⟨Or.inl rfl, rfl, rfl⟩
  · split
    · exact handlePuzzleSolve_components s true m1 m2
    · exact ⟨Or.inl rfl, rfl, rfl⟩

/-! ## The session invariant holds in every reachable state -/

theorem gok_of_world_player {s s' : Session}
    (hw : s'.game.world = s.game.world)
    (hp : s'.game.player.position = s.game.player.position)
    (h : GOk s.game) : GOk s'.game := by
  refine ⟨?_, ?_⟩
  · rw [hw]; exact h.1
  · rw [hw, hp]; exact h.2

theorem gok_wupdate_solved {s : Session} (h : GOk s.game) {s' : Session}
    (hw : s'.game.world =
      wupdate s.game.world s.game.player.position (fun t => { t with isSolved := true }))
    (hp : s'.game.player.position = s.game.player.position) : GOk s'.game := by
  refine ⟨?_, ?_⟩
  · rw [hw]
    exact wupdate_worldOk h.1 _ (fun t => ⟨rfl, rfl⟩)
  · rw [hw, hp]
    intro a b ha hb
    rw [wupdate_isSome]
    exact h.2 a b ha hb

theorem step_sessionOk {s s' : Session} (h : SessionOk s) (hs : Step s s') :
    SessionOk s' := by
  cases hs with
  | move dx dy rnd =>
      cases h0 : s.game.activePuzzle with
      | some p => simp only [movePlayer, h0]; exact h
      | none =>
          simp only [movePlayer, h0]
          refine ⟨applyEffect_gok rnd h.1.1, ?_⟩
          rw [(applyEffect_reqs rnd _).2]
          exact h.2
  | click x y m =>
      obtain ⟨hw, hp, hsv⟩ := handleTileClick_components s x y m
      refine ⟨gok_of_world_player hw (by rw [hp]) h.1, ?_⟩
      rw [hsv]; exact h.2
  | enrichDone c d v m =>
      obtain ⟨hw, hp, hsv⟩ := resolveEnrichReq_components s c d v m
      refine ⟨?_, by rw [hsv]; exact h.2⟩
      rcases hw with hw | hw
      · exact gok_of_world_player hw (by rw [hp]) h.1
      · refine ⟨?_, ?_⟩
        · rw [hw]
          exact wupdate_worldOk h.1.1 _ (fun t => ⟨rfl, rfl⟩)
        · rw [hw, hp]
          intro a b ha hb
          rw [wupdate_isSome]
          exact h.1.2 a b ha hb
  | puzzleDone p =>
      obtain ⟨hw, hp, hsv⟩ := resolvePuzzleReq_components s p
      refine ⟨gok_of_world_player hw (by rw [hp]) h.1, ?_⟩
      rw [hsv]; exact h.2
  | answer input m1 m2 =>
      obtain ⟨hw, hp, hsv⟩ := submitAnswer_components s input m1 m2
      refine ⟨?_, by rw [hsv]; exact h.2⟩
      rcases hw with hw | hw
      · exact gok_of_world_player hw hp h.1
      · exact gok_wupdate_solved h.1 hw hp
  | closeModal =>
      exact ⟨gok_of_world_player rfl rfl h.1, h.2⟩
  | saveSlot m =>
      refine ⟨gok_of_world_player rfl rfl h.1, ?_⟩
      intro r hr
      simp only [saveGame] at hr
      injection hr with hr
      subst hr
      intro p w hp hw
      simp only [Option.some.injEq] at hp hw
      subst hp
      subst hw
      exact ⟨h.1.1, h.1.2⟩
  | loadSlot m rnd =>
      cases h0 : s.saved with
      | none =>
          simp only [loadGame, h0]
          refine ⟨@gok_of_world_player s _ rfl rfl h.1, ?_⟩
          intro r hr
          simp at hr
      | some r =>
          have hr : RawOk r := h.2 r h0
          cases hp : r.player with
          | none =>
              simp only [loadGame, loadGameRaw, h0, hp]
              refine ⟨@gok_of_world_player s _ rfl rfl h.1, ?_⟩
              intro r1 hr1
              simp only [Option.some.injEq] at hr1
              subst hr1
              exact hr
          | some p =>
              cases hq : r.world with
              | none =>
                  simp only [loadGame, loadGameRaw, h0, hp, hq]
                  refine ⟨@gok_of_world_player s _ rfl rfl h.1, ?_⟩
                  intro r1 hr1
                  simp only [Option.some.injEq] at hr1
                  subst hr1
                  exact hr
              | some w =>
                  simp only [loadGame, h0, hp, hq]
                  refine ⟨applyEffect_gok rnd ?_, ?_⟩
                  · simp only [loadGameRaw, hp, hq]
                    exact (hr p w hp hq).1
                  · rw [(applyEffect_reqs rnd _).2]
                    intro r1 hr1
                    simp only [Option.some.injEq] at hr1
                    subst hr1
                    exact hr

theorem reachable_sessionOk {s : Session} (h : Reachable s) : SessionOk s := by
  induction h with
  | init rnd ts =>
      refine ⟨applyEffect_gok rnd ?_, ?_⟩
      · intro c t hc
        cases hc
      · intro r hr
        cases hr
  | step _ hs ih => exact step_sessionOk ih hs

/-! ## Substring characterisation (for answer checking) -/

theorem leadsWith_iff (hay needle : List Char) :
    leadsWith hay needle = true ↔ ∃ rest, hay = needle ++ rest := by
  induction needle generalizing hay with
  | nil => simp [leadsWith]
  | cons b bs ih =>
      cases hay with
      | nil => simp [leadsWith]
      | cons a as =>
          simp only [leadsWith, Bool.and_eq_true, beq_iff_eq, ih, List.cons_append,
            List.cons.injEq]
          constructor
          · rintro ⟨rfl, rest, rfl⟩
            exact ⟨rest, rfl, rfl⟩
          · rintro ⟨rest, rfl, rfl⟩
            exact ⟨rfl, rest, rfl⟩

theorem hasSub_iff (hay needle : List Char) :
    hasSub hay needle = true ↔ ∃ l r, hay = l ++ needle ++ r := by
  induction hay with
  | nil =>
      simp only [hasSub, List.isEmpty_iff]
      constructor
      · rintro rfl
        exact ⟨[], [], rfl⟩
      · rintro ⟨l, r, h⟩
        rcases List.append_eq_nil.mp h.symm with ⟨h1, h2⟩
        exact (List.append_eq_nil.mp h1).2
  | cons a rest ih =>
      simp only [hasSub, Bool.or_eq_true, leadsWith_iff, ih]
      constructor
      · rintro (⟨r, hr⟩ | ⟨l, r, hr⟩)
        · exact ⟨[], r, by simpa using hr⟩
        · exact ⟨a :: l, r, by simp [hr]⟩
      · rintro ⟨l, r, hr⟩
        cases l with
        | nil => exact Or.inl ⟨r, by simpa using hr⟩
        | cons x xs =>
            right
            simp only [List.cons_append, List.cons.injEq] at hr
            exact ⟨xs, r, hr.2⟩

/-! ## Tile evolution: what one operation may do to one existing tile -/

/-- A tile's immutable nature is kept and `isSolved` never regresses. -/
def TileEvolves (t t' : TileData) : Prop :=
  t'.biome = t.biome ∧ t'.hasPuzzle = t.hasPuzzle ∧ (t.isSolved = true → t'.isSolved = true)

/-- Every tile present before an operation is present afterwards and has only
evolved (same biome and `hasPuzzle`, `isSolved` at most raised). -/
def TilesEvolve (s s' : Session) : Prop :=
  ∀ c t, wlookup s.game.world c = some t →
    ∃ t', wlookup s'.game.world c = some t' ∧ TileEvolves t t'

theorem tilesEvolve_of_world_eq {s s' : Session}
    (hw : s'.game.world = s.game.world) : TilesEvolve s s' := by
  intro c t h
  exact ⟨t, by rw [hw]; exact h, rfl, rfl, id⟩

theorem tilesEvolve_of_wupdate {s s' : Session} {c₀ : Coordinates}
    {f : TileData → TileData} (hw : s'.game.world = wupdate s.game.world c₀ f)
    (hf : ∀ t, TileEvolves t (f t)) : TilesEvolve s s' := by
  intro c t h
  rw [hw, wlookup_wupdate]
  by_cases hc : c = c₀
  · subst hc
    rw [h, if_pos rfl]
    exact ⟨f t, rfl, hf t⟩
  · rw [if_neg hc]
    exact ⟨t, h, rfl, rfl, id⟩

theorem applyEffect_preserves {s : Session} {c : Coordinates} {t : TileData}
    (h : wlookup s.game.world c = some t) (rnd : Coordinates → ℚ × ℚ) :
    wlookup (applyEffect rnd s).game.world c = some t := by
  obtain ⟨_, hw, _, _, _⟩ := applyEffect_components rnd s
  rw [hw]
  exact ensureList_preserves h rnd _ _

theorem movePlayer_tiles (s : Session) (dx dy : Int) (rnd : Coordinates → ℚ × ℚ) :
    TilesEvolve s (movePlayer s dx dy rnd) := by
  cases h0 : s.game.activePuzzle with
  | some p =>
      simp only [movePlayer, h0]
      exact fun c t h => ⟨t, h, rfl, rfl, id⟩
  | none =>
      simp only [movePlayer, h0]
      intro c t h
      refine ⟨t, applyEffect_preserves ?_ rnd, rfl, rfl, id⟩
      exact h

theorem handleTileClick_tiles (s : Session) (x y : Int) (m : LogMeta) :
    TilesEvolve s (handleTileClick s x y m) :=
  tilesEvolve_of_world_eq (handleTileClick_components s x y m).1

theorem resolveEnrichReq_tiles (s : Session) (c : Coordinates) (d v : String) (m : LogMeta) :
    TilesEvolve s (resolveEnrichReq s c d v m) := by
  rcases (resolveEnrichReq_components s c d v m).1 with hw | hw
  · exact tilesEvolve_of_world_eq hw
  · exact tilesEvolve_of_wupdate hw (fun t => ⟨rfl, rfl, id⟩)

theorem resolvePuzzleReq_tiles (s : Session) (p : Puzzle) :
    TilesEvolve s (resolvePuzzleReq s p) :=
  tilesEvolve_of_world_eq (resolvePuzzleReq_components s p).1

theorem handlePuzzleSolve_tiles (s : Session) (success : Bool) (m1 m2 : LogMeta) :
    TilesEvolve s (handlePuzzleSolve s success m1 m2) := by
  rcases (handlePuzzleSolve_components s success m1 m2).1 with hw | hw
  · exact tilesEvolve_of_world_eq hw
  · exact tilesEvolve_of_wupdate hw (fun t => ⟨rfl, rfl, fun _ => rfl⟩)

theorem submitAnswer_tiles (s : Session) (input : String) (m1 m2 : LogMeta) :
    TilesEvolve s (submitAnswer s input m1 m2) := by
  rcases (submitAnswer_components s input m1 m2).1 with hw | hw
  · exact tilesEvolve_of_world_eq hw
  · exact tilesEvolve_of_wupdate hw (fun t => ⟨rfl, rfl, fun _ => rfl⟩)

theorem closePuzzle_tiles (s : Session) : TilesEvolve s (closePuzzle s) :=
  tilesEvolve_of_world_eq rfl

theorem saveGame_tiles (s : Session) (m : LogMeta) : TilesEvolve s (saveGame s m) :=
  tilesEvolve_of_world_eq rfl

theorem loadGame_blob_tiles (s : Session) (m : LogMeta) (rnd : Coordinates → ℚ × ℚ)
    {r : RawSave} {p : PlayerState} {w : World} (h0 : s.saved = some r)
    (hp : r.player = some p) (hq : r.world = some w) {c : Coordinates} {t : TileData}
    (h : wlookup w c = some t) :
    wlookup (loadGame s m rnd).game.world c = some t := by
  simp only [loadGame, h0, hp, hq]
  refine applyEffect_preserves ?_ rnd
  simp only [loadGameRaw, hp, hq]
  exact h

/-- Restriction of `TilesEvolve` to `isSolved` monotonicity. -/
def SolvedMono (s s' : Session) : Prop :=
  ∀ c t t', wlookup s.game.world c = some t → wlookup s'.game.world c = some t' →
    t.isSolved = true → t'.isSolved = true

/-- Restriction of `TilesEvolve` to the immutability of biome and `hasPuzzle`. -/
def NatureEq (s s' : Session) : Prop :=
  ∀ c t t', wlookup s.game.world c = some t → wlookup s'.game.world c = some t' →
    t'.biome = t.biome ∧ t'.hasPuzzle = t.hasPuzzle

theorem solvedMono_of_tilesEvolve {s s' : Session} (h : TilesEvolve s s') :
    SolvedMono s s' := by
  intro c t t' ht ht' hsolved
  obtain ⟨t'', ht'', hev⟩ := h c t ht
  rw [ht''] at ht'
  cases ht'
  exact hev.2.2 hsolved

theorem natureEq_of_tilesEvolve {s s' : Session} (h : TilesEvolve s s') :
    NatureEq s s' := by
  intro c t t' ht ht'
  obtain ⟨t'', ht'', hev⟩ := h c t ht
  rw [ht''] at ht'
  cases ht'
  exact ⟨hev.1, hev.2.1⟩

/-! ## Further helper lemmas for save/load and citations -/

theorem ensureList_noop {g : GameState} {p : Coordinates} {l : List (Int × Int)}
    (h : ∀ d e : Int, (d, e) ∈ l → (wlookup g.world ⟨p.x + d, p.y + e⟩).isSome = true)
    (rnd : Coordinates → ℚ × ℚ) : ensureList rnd p l g = g := by
  induction l with
  | nil => rfl
  | cons off rest ih =>
      rw [ensureList]
      have hoff := h off.1 off.2 (by simp)
      cases hl : wlookup g.world ⟨p.x + off.1, p.y + off.2⟩ with
      | none => rw [hl] at hoff; cases hoff
      | some t =>
          rw [ensureTileExists_of_some hl]
          exact ih (fun d e hm => h d e (List.mem_cons_of_mem _ hm))

/-- The citation policy as the spec words it: a chunk contributes a citation
exactly when it carries a source locator (a truthy `uri`); its title defaults
to "Source" when absent (or empty, which JS `||` also replaces). -/
def citeOf (c : GroundingChunk) : Option GroundingUrl :=
  match c.web with
  | none => none
  | some w =>
      match w.uri with
      | none => none
      | some u =>
          if u = "" then none
          else some ⟨match w.title with
                     | some t => if t = "" then "Source" else t
                     | none => "Source", u⟩

theorem extractUrls_eq (chunks : List GroundingChunk) :
    extractUrls chunks = chunks.filterMap citeOf := by
  induction chunks with
  | nil => rfl
  | cons c rest ih =>
      unfold extractUrls at ih ⊢
      cases hweb : c.web with
      | none => simp [List.filter, List.filterMap, chunkKeep, citeOf, hweb, ih]
      | some w =>
          cases huri : w.uri with
          | none => simp [List.filter, List.filterMap, chunkKeep, citeOf, jsTruthy, hweb, huri, ih]
          | some u =>
              by_cases hu : u = ""
              · simp [List.filter, List.filterMap, chunkKeep, citeOf, jsTruthy, hweb, huri, hu, ih]
              · have hks : chunkKeep c = true := by
                  simp [chunkKeep, jsTruthy, hweb, huri, hu]
                have hcite : citeOf c = some (chunkUrl c) := by
                  cases htitle : w.title with
                  | none => simp [citeOf, chunkUrl, hweb, huri, hu, htitle]
                  | some ti =>
                      by_cases hti : ti = "" <;>
                        simp [citeOf, chunkUrl, hweb, huri, hu, htitle, hti]
                simp [List.filter, List.filterMap, hks, hcite, ih]

/-! ## Concrete runs used below

`rnd1` makes the starting tile (0,0) a reality node (draw 0.1 < 0.15) and
every other tile a puzzle-free data wasteland (draw 0.9; puzzle draw 0.2);
`rnd2` makes every tile a puzzle-free data wasteland. -/

def rnd1 : Coordinates → ℚ × ℚ :=
  fun c => if c = ⟨0, 0⟩ then (q01, q09) else (q09, q02)

def rnd2 : Coordinates → ℚ × ℚ := fun _ => (q09, q02)

def mA : LogMeta := ⟨"a", 1⟩

def mB : LogMeta := ⟨"b", 2⟩

def mC : LogMeta := ⟨"c", 3⟩

def mD : LogMeta := ⟨"d", 4⟩

/-- The fallback puzzle value of the provider, as typed by `types.ts` (the
puzzle `generatePuzzle` resolves with when the backend call fails). -/
def p4 : Puzzle :=
  ⟨"u", "404 Puzzle Not Found. What is 2 + 2?", .logic, none, "4", false, none⟩

/-- Run A: interact with the starting reality-node tile (puzzle generation
goes Pending), then move away while the generation is still in flight, then
the puzzle resolves and is answered correctly on a puzzle-free tile. -/
def runA0 : Session := initSession rnd1 0

def runA1 : Session := handleTileClick runA0 0 0 mA

def runA2 : Session := movePlayer runA1 1 0 rnd2

def runA3 : Session := resolvePuzzleReq runA2 p4

def runA4 : Session := submitAnswer runA3 "4" mB mC

/-- Run B: enrichment of tile (0,0) is requested at start, requested a second
time after stepping away and back, and the two responses then land in order. -/
def runB0 : Session := initSession rnd2 0

def runB1 : Session := movePlayer runB0 1 0 rnd2

def runB2 : Session := movePlayer runB1 (-1) 0 rnd2

def runB3 : Session :=
  resolveEnrichReq runB2 ⟨0, 0⟩ "A flickering data spire hums." "Spire" mA

def runB4 : Session :=
  resolveEnrichReq runB3 ⟨0, 0⟩ "Static interference blocks your sensors." "Glitch" mB

/-- A small session holding an active fallback puzzle, used to instantiate
universally quantified results. -/
def sWit : Session :=
  ⟨⟨⟨⟨0, 0⟩, [], 0, 1⟩, [], [], false, some p4⟩, [], 0, none⟩

/-- Session with 450 XP at level 1 and an active puzzle (spec scenario §8). -/
def s450 : Session :=
  ⟨⟨⟨⟨0, 0⟩, [], 450, 1⟩, [(⟨0, 0⟩, rollTile q09 q09 0 0)], [], false, some p4⟩, [], 0, none⟩

theorem reachable_runA1 : Reachable runA1 :=
  (Reachable.init rnd1 0).step (Step.click runA0 0 0 mA)

theorem reachable_runA2 : Reachable runA2 :=
  reachable_runA1.step (Step.move runA1 1 0 rnd2)

theorem reachable_runA4 : Reachable runA4 :=
  ((reachable_runA2.step (Step.puzzleDone runA2 p4)).step (Step.answer runA3 "4" mB mC))

theorem reachable_runB3 : Reachable runB3 :=
  ((((Reachable.init rnd2 0).step (Step.move runB0 1 0 rnd2)).step
      (Step.move runB1 (-1) 0 rnd2)).step
    (Step.enrichDone runB2 ⟨0, 0⟩ "A flickering data spire hums." "Spire" mA))

theorem offsets_bounds (d e : Int) (h : (d, e) ∈ offsets) :
    d.natAbs ≤ 1 ∧ e.natAbs ≤ 1 := by
  fin_cases h <;> exact ⟨by decide, by decide⟩

/-! ## Claims -/

/-- C1 (amended): in every reachable session state, reality-node tiles carry a
puzzle; freshly created tiles start unsolved; and no session operation ever
lowers a tile's `isSolved` flag (it can only go `false → true`).  The original
claim's remaining part — that `isSolved` is set only on tiles with
`hasPuzzle = true` — is refuted by `C1_counterexample_solved_without_puzzle`:
resolution marks the player's *current* tile, which may be puzzle-free when
the player moved while generation was pending. -/
theorem C1_tile_invariants :
    (∀ s, Reachable s → ∀ c t, wlookup s.game.world c = some t →
        t.biome = BiomeType.REALITY_NODE → t.hasPuzzle = true) ∧
    (∀ (r1 r2 : ℚ) (x y : Int) (g : GameState), wlookup g.world ⟨x, y⟩ = none →
        ∃ t, wlookup (ensureTileExists r1 r2 x y g).world ⟨x, y⟩ = some t ∧
          t.isSolved = false) ∧
    (∀ s dx dy rnd, SolvedMono s (movePlayer s dx dy rnd)) ∧
    (∀ s x y m, SolvedMono s (handleTileClick s x y m)) ∧
    (∀ s c d v m, SolvedMono s (resolveEnrichReq s c d v m)) ∧
    (∀ s p, SolvedMono s (resolvePuzzleReq s p)) ∧
    (∀ s input m1 m2, SolvedMono s (submitAnswer s input m1 m2)) ∧
    (∀ s success m1 m2, SolvedMono s (handlePuzzleSolve s success m1 m2)) ∧
    (∀ s, SolvedMono s (closePuzzle s)) ∧
    (∀ s m, SolvedMono s (saveGame s m)) := by
  refine ⟨?_, ?_, ?_, ?_, ?_, ?_, ?_, ?_, ?_, ?_⟩
  · intro s hs c t hl hb
    exact (reachable_sessionOk hs).1.1 c t hl hb
  · intro r1 r2 x y g h
    cases ht : wlookup (ensureTileExists r1 r2 x y g).world ⟨x, y⟩ with
    | none =>
        have := ensureTileExists_isSome r1 r2 x y g
        rw [ht] at this
        cases this
    | some t =>
        rcases ensureTileExists_lookup_cases ht with h1 | h1
        · rw [h] at h1; cases h1
        · exact ⟨t, rfl, h1.2.1⟩
  · exact fun s dx dy rnd => solvedMono_of_tilesEvolve (movePlayer_tiles s dx dy rnd)
  · exact fun s x y m => solvedMono_of_tilesEvolve (handleTileClick_tiles s x y m)
  · exact fun s c d v m => solvedMono_of_tilesEvolve (resolveEnrichReq_tiles s c d v m)
  · exact fun s p => solvedMono_of_tilesEvolve (resolvePuzzleReq_tiles s p)
  · exact fun s input m1 m2 => solvedMono_of_tilesEvolve (submitAnswer_tiles s input m1 m2)
  · exact fun s success m1 m2 =>
      solvedMono_of_tilesEvolve (handlePuzzleSolve_tiles s success m1 m2)
  · exact fun s => solvedMono_of_tilesEvolve (closePuzzle_tiles s)
  · exact fun s m => solvedMono_of_tilesEvolve (saveGame_tiles s m)

/-- C1 counterexample: a reachable state (interact with the starting
reality-node tile, move one step right while puzzle generation is in flight,
let the puzzle resolve, answer it correctly) in which the tile at (1,0) has
`isSolved = true` but `hasPuzzle = false` — refuting `isSolved ⟹ hasPuzzle`
and "isSolved transitions only on tiles whose hasPuzzle is true". -/
theorem C1_counterexample_solved_without_puzzle :
    Reachable runA4 ∧
    (wlookup runA4.game.world ⟨1, 0⟩).map (fun t => (t.hasPuzzle, t.isSolved)) =
      some (false, true) :=
  ⟨reachable_runA4, by decide⟩

/-- C1 witness: the starting tile of `runA0` is a reality node and indeed has
a puzzle, via the reachable-state invariant. -/
theorem C1_witness :
    (wlookup runA0.game.world ⟨0, 0⟩).map TileData.hasPuzzle = some true := by
  have hl : wlookup runA0.game.world ⟨0, 0⟩ = some (rollTile q01 q09 0 0) := by decide
  have h := C1_tile_invariants.1 runA0 (Reachable.init rnd1 0) ⟨0, 0⟩
    (rollTile q01 q09 0 0) hl (by decide)
  rw [hl, Option.map_some', h]

/-- C2 (amended): the pending-sentinel check happens when the enrichment
request is *issued* — `enrichTileContent` fires a backend request exactly when
the tile's description is still "Scanning..." — but the write after the
response arrives is unconditional: a response resolving after the tile's
description was already set still overwrites description and visualFeature
(no stale-response discard). -/
theorem C2_enrichment_guard :
    (∀ (g : GameState) (c : Coordinates),
        (enrichTileStart g c).2 = true ↔
          ∃ t, wlookup g.world c = some t ∧ t.description = "Scanning...") ∧
    (∀ (s : Session) (c : Coordinates) (d v : String) (m : LogMeta) (t : TileData),
        c ∈ s.enrichReqs → wlookup s.game.world c = some t →
          wlookup (resolveEnrichReq s c d v m).game.world c =
            some { t with description := d, visualFeature := v }) := by
  constructor
  · intro g c
    rw [enrichTileStart_eq]
    unfold tileIsPendingB
    cases h : wlookup g.world c with
    | none => simp
    | some t => simp [beq_iff_eq]
  · intro s c d v m t hm hl
    unfold resolveEnrichReq
    rw [if_pos hm]
    show wlookup
      (wupdate s.game.world c (fun t => { t with description := d, visualFeature := v })) c = _
    rw [wlookup_wupdate, if_pos rfl, hl]
    rfl

/-- C2 counterexample: two enrichment requests for (0,0) are in flight; the
first response writes the description, and the second (late) response then
overwrites it instead of being discarded. -/
theorem C2_counterexample_stale_overwrite :
    Reachable runB3 ∧
    (⟨0, 0⟩ : Coordinates) ∈ runB3.enrichReqs ∧
    (wlookup runB3.game.world ⟨0, 0⟩).map TileData.description =
      some "A flickering data spire hums." ∧
    runB4 = resolveEnrichReq runB3 ⟨0, 0⟩ "Static interference blocks your sensors."
      "Glitch" mB ∧
    (wlookup runB4.game.world ⟨0, 0⟩).map TileData.description =
      some "Static interference blocks your sensors." :=
  ⟨reachable_runB3, by decide, by decide, rfl, by decide⟩

/-- C2 witness: at start the pending tile does fire a request, and a resolved
response writes the delivered description. -/
theorem C2_witness :
    (enrichTileStart runB0.game ⟨0, 0⟩).2 = true ∧
    (wlookup (resolveEnrichReq runB2 ⟨0, 0⟩ "z" "w" mC).game.world ⟨0, 0⟩).map
      TileData.description = some "z" := by
  constructor
  · exact (C2_enrichment_guard.1 runB0.game ⟨0, 0⟩).mpr
      ⟨rollTile q09 q02 0 0, by decide, by decide⟩
  · have h := C2_enrichment_guard.2 runB2 ⟨0, 0⟩ "z" "w" mC (rollTile q09 q02 0 0)
      (by decide) (by decide)
    rw [h]
    rfl

/-- Projection of `applyEffect`: the player record is untouched. -/
theorem applyEffect_position (rnd : Coordinates → ℚ × ℚ) (s : Session) :
    (applyEffect rnd s).game.player = s.game.player :=
  (applyEffect_components rnd s).1

/-- C3 (amended): a `move(dx,dy)` intent is rejected (session unchanged)
exactly when a puzzle is Active (`activePuzzle` attached); while generation is
merely Pending (in flight, nothing attached yet) movement is NOT rejected —
see `C3_counterexample_move_while_pending` — and an accepted move translates
the position by the integer delta with no bounds check. -/
theorem C3_move_lock :
    ∀ (s : Session) (dx dy : Int) (rnd : Coordinates → ℚ × ℚ),
      (∀ p, s.game.activePuzzle = some p → movePlayer s dx dy rnd = s) ∧
      (s.game.activePuzzle = none →
        (movePlayer s dx dy rnd).game.player.position =
          ⟨s.game.player.position.x + dx, s.game.player.position.y + dy⟩) := by
  intro s dx dy rnd
  constructor
  · intro p hp
    simp only [movePlayer, hp]
  · intro hp
    simp only [movePlayer, hp]
    rw [applyEffect_position rnd]

/-- C3 counterexample: a reachable state with a puzzle generation in flight
(one pending request, busy flag up, no puzzle attached) in which a move is
accepted and changes the position — refuting "rejected while ... Pending". -/
theorem C3_counterexample_move_while_pending :
    Reachable runA1 ∧ runA1.puzzleReqs = 1 ∧ runA1.game.isGenerating = true ∧
    runA1.game.activePuzzle = none ∧
    runA2 = movePlayer runA1 1 0 rnd2 ∧
    runA1.game.player.position = ⟨0, 0⟩ ∧
    runA2.game.player.position = ⟨1, 0⟩ :=
  ⟨reachable_runA1, by decide, by decide, by decide, rfl, by decide, by decide⟩

/-- C3 witness: with an attached puzzle the move is a no-op, and without one
the position translates by the delta. -/
theorem C3_witness :
    movePlayer sWit 1 0 rnd2 = sWit ∧
    (movePlayer runA0 1 0 rnd2).game.player.position = ⟨1, 0⟩ := by
  refine ⟨(C3_move_lock sWit 1 0 rnd2).1 p4 rfl, ?_⟩
  exact ((C3_move_lock runA0 1 0 rnd2).2 (by decide)).trans (by decide)

/-- C4 (amended): a thrown backend call or unparseable response text yields
the deterministic fallback and neither generation path ever raises (both are
total functions); but structurally malformed yet parseable JSON is NOT
treated as a failure: `generateTileContent` returns the parsed value with no
validation, and `generatePuzzle` builds a puzzle straight from whatever
fields are present (absent response text is even parsed as `{}`), so
partially-populated results do occur — see
`C4_counterexample_malformed_passthrough`. -/
theorem C4_fallback_policy :
    (generateTileContent BackendResp.transportFail = fallbackContent) ∧
    (generateTileContent BackendResp.noText = fallbackContent) ∧
    (generateTileContent BackendResp.badJson = fallbackContent) ∧
    (∀ j, generateTileContent (BackendResp.goodJson j) = j) ∧
    (∀ uuid, generatePuzzleCore uuid BackendResp.transportFail = fallbackPuzzle uuid) ∧
    (∀ uuid, generatePuzzleCore uuid BackendResp.badJson = fallbackPuzzle uuid) ∧
    (∀ uuid, generatePuzzleCore uuid BackendResp.noText = puzzleFromData uuid (Json.obj [])) ∧
    (∀ uuid j, generatePuzzleCore uuid (BackendResp.goodJson j) = puzzleFromData uuid j) :=
  ⟨rfl, rfl, rfl, fun _ => rfl, fun _ => rfl, fun _ => rfl, fun _ => rfl, fun _ _ => rfl⟩

/-- C4 counterexample: the structurally malformed (but parseable) response
`{}` is passed through by `generateTileContent` instead of the fallback, and
`generatePuzzle` returns a partially-populated puzzle (its `answer` is
`undefined`) instead of the fallback. -/
theorem C4_counterexample_malformed_passthrough :
    generateTileContent (BackendResp.goodJson (Json.obj [])) = Json.obj [] ∧
    Json.obj [] ≠ fallbackContent ∧
    generatePuzzleCore "u" (BackendResp.goodJson (Json.obj [])) ≠ fallbackPuzzle "u" ∧
    (generatePuzzleCore "u" (BackendResp.goodJson (Json.obj []))).answer = none := by
  refine ⟨rfl, ?_, ?_, rfl⟩
  · intro h
    simp [fallbackContent] at h
  · intro h
    have h2 : (generatePuzzleCore "u" (BackendResp.goodJson (Json.obj []))).answer =
        (fallbackPuzzle "u").answer := by rw [h]
    simp [generatePuzzleCore, puzzleFromData, fallbackPuzzle, jget, jget.lookupField] at h2

/-- C5 (confirmed): `ensureTileExists` is idempotent — any second call for the
same coordinate returns the state unchanged, and in particular re-rolls
nothing — and no session operation changes the biome or `hasPuzzle` of an
existing tile (load swaps in the saved world verbatim, every saved tile kept
with all its fields). -/
theorem C5_ensure_idempotent_nature_immutable :
    (∀ (g : GameState) (r1 r2 r1' r2' : ℚ) (x y : Int),
        ensureTileExists r1' r2' x y (ensureTileExists r1 r2 x y g) =
          ensureTileExists r1 r2 x y g) ∧
    (∀ s dx dy rnd, NatureEq s (movePlayer s dx dy rnd)) ∧
    (∀ s x y m, NatureEq s (handleTileClick s x y m)) ∧
    (∀ s c d v m, NatureEq s (resolveEnrichReq s c d v m)) ∧
    (∀ s p, NatureEq s (resolvePuzzleReq s p)) ∧
    (∀ s input m1 m2, NatureEq s (submitAnswer s input m1 m2)) ∧
    (∀ s success m1 m2, NatureEq s (handlePuzzleSolve s success m1 m2)) ∧
    (∀ s, NatureEq s (closePuzzle s)) ∧
    (∀ s m, NatureEq s (saveGame s m)) ∧
    (∀ s m rnd r p w c t, s.saved = some r → r.player = some p → r.world = some w →
        wlookup w c = some t → wlookup (loadGame s m rnd).game.world c = some t) := by
  refine ⟨?_, ?_, ?_, ?_, ?_, ?_, ?_, ?_, ?_, ?_⟩
  · intro g r1 r2 r1' r2' x y
    cases ht : wlookup (ensureTileExists r1 r2 x y g).world ⟨x, y⟩ with
    | none =>
        have := ensureTileExists_isSome r1 r2 x y g
        rw [ht] at this
        cases this
    | some t => exact ensureTileExists_of_some ht r1' r2'
  · exact fun s dx dy rnd => natureEq_of_tilesEvolve (movePlayer_tiles s dx dy rnd)
  · exact fun s x y m => natureEq_of_tilesEvolve (handleTileClick_tiles s x y m)
  · exact fun s c d v m => natureEq_of_tilesEvolve (resolveEnrichReq_tiles s c d v m)
  · exact fun s p => natureEq_of_tilesEvolve (resolvePuzzleReq_tiles s p)
  · exact fun s input m1 m2 => natureEq_of_tilesEvolve (submitAnswer_tiles s input m1 m2)
  · exact fun s success m1 m2 =>
      natureEq_of_tilesEvolve (handlePuzzleSolve_tiles s success m1 m2)
  · exact fun s => natureEq_of_tilesEvolve (closePuzzle_tiles s)
  · exact fun s m => natureEq_of_tilesEvolve (saveGame_tiles s m)
  · exact fun s m rnd r p w c t h0 hp hq h =>
      loadGame_blob_tiles s m rnd h0 hp hq h

/-- C5 witness: a repeated `ensureTileExists` call with different random draws
on a concrete state returns the state of the first call unchanged, and a
save-then-load keeps a saved tile with all its fields. -/
theorem C5_witness :
    (ensureTileExists q01 q01 5 5 (ensureTileExists q09 q02 5 5 runA0.game) =
      ensureTileExists q09 q02 5 5 runA0.game) ∧
    wlookup (loadGame (saveGame runB0 mA) mB rnd2).game.world ⟨0, 0⟩ =
      some (rollTile q09 q02 0 0) := by
  refine ⟨C5_ensure_idempotent_nature_immutable.1 runA0.game q09 q02 q01 q01 5 5, ?_⟩
  exact C5_ensure_idempotent_nature_immutable.2.2.2.2.2.2.2.2.2
    (saveGame runB0 mA) mB rnd2
    ⟨some runB0.game.player, some runB0.game.world, runB0.game.logs, false,
      runB0.game.activePuzzle⟩
    runB0.game.player runB0.game.world ⟨0, 0⟩ (rollTile q09 q02 0 0)
    (by decide) (by decide) (by decide) (by decide)

/-- C6 (confirmed): a correct resolution adds exactly `XP_PER_PUZZLE = 100`
experience, recomputes `level = floor(newXp / 500) + 1`, and appends the
level-up log entry exactly when the recomputed level exceeds the previous
one. -/
theorem C6_xp_level (s : Session) (p : Puzzle) (m1 m2 : LogMeta)
    (h : s.game.activePuzzle = some p) :
    (handlePuzzleSolve s true m1 m2).game.player.xp = s.game.player.xp + XP_PER_PUZZLE ∧
    (handlePuzzleSolve s true m1 m2).game.player.level =
      (s.game.player.xp + XP_PER_PUZZLE) / XP_PER_LEVEL + 1 ∧
    (handlePuzzleSolve s true m1 m2).game.logs =
      s.game.logs ++
        [mkLog m1 ("Logic Gate Bypassed. Data extracted (+" ++ toString XP_PER_PUZZLE ++
          " XP).") LogType.success] ++
        (if s.game.player.level < (s.game.player.xp + XP_PER_PUZZLE) / XP_PER_LEVEL + 1 then
          [mkLog m2 ("*** SYSTEM UPGRADE *** LEVEL " ++
              toString ((s.game.player.xp + XP_PER_PUZZLE) / XP_PER_LEVEL + 1) ++
              " REACHED. Processing power increased.") LogType.success]
        else []) := by
  by_cases hlv : s.game.player.level < (s.game.player.xp + XP_PER_PUZZLE) / XP_PER_LEVEL + 1 <;>
    simp [handlePuzzleSolve, h, addLog, hlv]

/-- C6 witness: resolving at 450 XP, level 1 yields 550 XP, level 2 and
exactly one level-up log entry (spec scenario §8). -/
theorem C6_witness :
    (handlePuzzleSolve s450 true mB mC).game.player.xp = 550 ∧
    (handlePuzzleSolve s450 true mB mC).game.player.level = 2 ∧
    (handlePuzzleSolve s450 true mB mC).game.logs =
      [mkLog mB "Logic Gate Bypassed. Data extracted (+100 XP)." LogType.success,
       mkLog mC "*** SYSTEM UPGRADE *** LEVEL 2 REACHED. Processing power increased."
         LogType.success] := by
  obtain ⟨h1, h2, h3⟩ := C6_xp_level s450 p4 mB mC rfl
  exact ⟨h1.trans (by decide), h2.trans (by decide), h3.trans (by decide)⟩

/-- C7 (confirmed): a submission is accepted iff, after lower-casing and
trimming both strings, the submission equals the stored answer or contains it
as a contiguous substring; a rejected submission leaves the whole session —
in particular the still-attached puzzle — untouched. -/
theorem C7_answer_matching (p : Puzzle) (input : String) :
    (checkAnswer p input = true ↔
      (normalizeAns input = normalizeAns p.answer ∨
        ∃ l r, normalizeAns input = l ++ normalizeAns p.answer ++ r)) ∧
    (checkAnswer p input = false →
      ∀ (s : Session) (m1 m2 : LogMeta), s.game.activePuzzle = some p →
        submitAnswer s input m1 m2 = s) := by
  constructor
  · unfold checkAnswer
    simp only [Bool.or_eq_true, decide_eq_true_eq, hasSub_iff]
  · intro hf s m1 m2 hp
    simp [submitAnswer, hp, hf]

/-- C7 witness: with stored answer "4", both "4" and "the answer is 4" are
accepted (substring rule), "5" is rejected and rejection changes nothing. -/
theorem C7_witness :
    checkAnswer p4 "the answer is 4" = true ∧
    checkAnswer p4 "4" = true ∧
    checkAnswer p4 "5" = false ∧
    submitAnswer sWit "5" mB mC = sWit := by
  refine ⟨?_, ?_, by decide, (C7_answer_matching p4 "5").2 (by decide) sWit mB mC rfl⟩
  · exact (C7_answer_matching p4 "the answer is 4").1.mpr
      (Or.inr ⟨"the answer is ".toList, [], by decide⟩)
  · exact (C7_answer_matching p4 "4").1.mpr (Or.inl (by decide))

/-- C8 (amended): `save()` immediately followed by a successful `load()`
restores player, world and active puzzle verbatim and leaves the in-flight
busy flag equal to whether the player's current tile still awaits enrichment
(the loaded snapshot itself carries `isGenerating = false`; the re-run
generation effect raises it again only for a still-pending tile).  The log
sequence, however, is NOT reproduced verbatim: it becomes the pre-save logs
plus one restore-success entry (the backup entry appended by `save` is not
part of the serialized blob) — see `C8_counterexample_logs_not_identical`.
A payload lacking `player` or `world` fails with an error log entry and no
other mutation. -/
theorem C8_saveload (s : Session) (m1 m2 : LogMeta) (rnd : Coordinates → ℚ × ℚ)
    (h : RadiusOkAt s.game.world s.game.player.position) :
    ((loadGame (saveGame s m1) m2 rnd).game.player = s.game.player ∧
     (loadGame (saveGame s m1) m2 rnd).game.world = s.game.world ∧
     (loadGame (saveGame s m1) m2 rnd).game.activePuzzle = s.game.activePuzzle ∧
     (loadGame (saveGame s m1) m2 rnd).game.logs =
       s.game.logs ++ [mkLog m2 "SYSTEM RESTORED FROM BACKUP. [STATE LOADED]"
         LogType.success] ∧
     (loadGame (saveGame s m1) m2 rnd).game.isGenerating =
       tileIsPendingB s.game s.game.player.position) ∧
    (∀ (g : GameState) (r : RawSave) (m : LogMeta), r.player = none ∨ r.world = none →
      loadGameRaw g (some r) m =
        addLog m "RESTORE FAILED: CORRUPT DATA." LogType.error g) := by
  constructor
  · have hload : loadGame (saveGame s m1) m2 rnd = applyEffect rnd
        { game := ⟨s.game.player, s.game.world,
            s.game.logs ++ [mkLog m2 "SYSTEM RESTORED FROM BACKUP. [STATE LOADED]"
              LogType.success], false, s.game.activePuzzle⟩
          enrichReqs := s.enrichReqs
          puzzleReqs := s.puzzleReqs
          saved := some ⟨some s.game.player, some s.game.world, s.game.logs, false,
            s.game.activePuzzle⟩ } := rfl
    rw [hload]
    obtain ⟨h1, h2, h3, h4, h5⟩ := applyEffect_components rnd _
    have hno : ensureList rnd s.game.player.position offsets
        (⟨s.game.player, s.game.world,
          s.game.logs ++ [mkLog m2 "SYSTEM RESTORED FROM BACKUP. [STATE LOADED]"
            LogType.success], false, s.game.activePuzzle⟩ : GameState) =
        ⟨s.game.player, s.game.world,
          s.game.logs ++ [mkLog m2 "SYSTEM RESTORED FROM BACKUP. [STATE LOADED]"
            LogType.success], false, s.game.activePuzzle⟩ := by
      refine ensureList_noop ?_ rnd
      intro d e hm
      obtain ⟨hd, he⟩ := offsets_bounds d e hm
      have hx : (s.game.player.position.x + d - s.game.player.position.x).natAbs ≤ 1 := by
        have hxe : s.game.player.position.x + d - s.game.player.position.x = d := by ring
        rw [hxe]; exact hd
      have hy : (s.game.player.position.y + e - s.game.player.position.y).natAbs ≤ 1 := by
        have hye : s.game.player.position.y + e - s.game.player.position.y = e := by ring
        rw [hye]; exact he
      exact h _ _ hx hy
    refine ⟨h1, ?_, h4, h3, ?_⟩
    · rw [h2, hno]
    · rw [h5, hno]
      rfl
  · intro g r m hr
    cases hp : r.player with
    | none => simp only [loadGameRaw, hp]
    | some p =>
        cases hq : r.world with
        | none => simp only [loadGameRaw, hp, hq]
        | some w =>
            rcases hr with hr | hr
        
            · rw [hp] at hr; cases hr
            · rw [hq] at hr; cases hr

/-- C8 counterexample: after save-then-load from the initial state the log
sequence differs from the pre-save one (a restore entry was appended), even
though player and world round-tripped — refuting "same log sequence". -/
theorem C8_counterexample_logs_not_identical :
    (loadGame (saveGame runB0 mA) mB rnd2).game.player = runB0.game.player ∧
    (loadGame (saveGame runB0 mA) mB rnd2).game.world = runB0.game.world ∧
    (loadGame (saveGame runB0 mA) mB rnd2).game.logs ≠ runB0.game.logs := by
  refine ⟨by decide, by decide, by decide⟩

/-- C8 witness: the round trip from the initial session restores the world
and appends exactly the restore log entry. -/
theorem C8_witness :
    (loadGame (saveGame runB0 mA) mB rnd2).game.world = runB0.game.world ∧
    (loadGame (saveGame runB0 mA) mB rnd2).game.logs =
      runB0.game.logs ++ [mkLog mB "SYSTEM RESTORED FROM BACKUP. [STATE LOADED]"
        LogType.success] := by
  have h := C8_saveload runB0 mA mB rnd2 (reachable_sessionOk (Reachable.init rnd2 0)).1.2
  exact ⟨h.1.2.1, h.1.2.2.2.1⟩

/-- Grounding chunks used to instantiate C9: one with a locator but no title,
one with a title but no locator, one with no web payload at all. -/
def chunksW : List GroundingChunk :=
  [⟨some ⟨none, some "https://example.org/a"⟩⟩, ⟨some ⟨some "T", none⟩⟩, ⟨none⟩]

/-- C9 (confirmed): a successful grounded generation returns options that are
a permutation (element counts included) of the wrong options together with the
correct answer, keeps the correct answer as `answer`, tags the puzzle
`reality_check`, prefixes the question with the fixed marker, and extracts
citations by dropping every chunk without a source locator and defaulting an
absent title to "Source".  The inconsistent-comparator `sort` is abstracted
as any permutation-producing `shuffle`. -/
theorem C9_grounded_puzzle (uuid : String) (shuffle : List String → List String)
    (data : RealityData) (chunks : List GroundingChunk) (wo : List String)
    (hsh : ∀ l, (shuffle l).Perm l) (hwo : data.wrongOptions = some wo) :
    (generateRealityPuzzle uuid shuffle data chunks).options =
      some (shuffle (wo ++ [data.correctAnswer])) ∧
    (shuffle (wo ++ [data.correctAnswer])).Perm (wo ++ [data.correctAnswer]) ∧
    (∀ a, (shuffle (wo ++ [data.correctAnswer])).count a =
      (wo ++ [data.correctAnswer]).count a) ∧
    (generateRealityPuzzle uuid shuffle data chunks).answer = data.correctAnswer ∧
    (generateRealityPuzzle uuid shuffle data chunks).type = PuzzleType.reality_check ∧
    (generateRealityPuzzle uuid shuffle data chunks).question =
      "[REALITY CHECK]\n" ++ data.question ∧
    (generateRealityPuzzle uuid shuffle data chunks).groundingUrls =
      some (chunks.filterMap citeOf) := by
  refine ⟨?_, hsh _, fun a => (hsh _).count_eq a, rfl, rfl, rfl, ?_⟩
  · simp only [generateRealityPuzzle, hwo, Option.getD_some]
  · simp only [generateRealityPuzzle, extractUrls_eq]

/-- C9 witness: the scenario wrongOptions = ["A","B"], correctAnswer = "C"
(with the identity shuffle) gives options containing each of A, B, C exactly
once, answer "C", and one citation defaulting its title to "Source". -/
theorem C9_witness :
    (generateRealityPuzzle "u" id ⟨"Q", "C", some ["A", "B"]⟩ chunksW).options =
      some ["A", "B", "C"] ∧
    (∀ a, a ∈ (["A", "B", "C"] : List String) →
      (["A", "B", "C"] : List String).count a = 1) ∧
    (generateRealityPuzzle "u" id ⟨"Q", "C", some ["A", "B"]⟩ chunksW).answer = "C" ∧
    (generateRealityPuzzle "u" id ⟨"Q", "C", some ["A", "B"]⟩ chunksW).question =
      "[REALITY CHECK]\nQ" ∧
    (generateRealityPuzzle "u" id ⟨"Q", "C", some ["A", "B"]⟩ chunksW).groundingUrls =
      some [⟨"Source", "https://example.org/a"⟩] := by
  obtain ⟨h1, _, _, h4, _, h6, h7⟩ := C9_grounded_puzzle "u" id ⟨"Q", "C", some ["A", "B"]⟩
    chunksW ["A", "B"] (fun l => List.Perm.refl l) rfl
  exact ⟨h1.trans (by decide), by decide, h4, h6.trans (by decide), h7.trans (by decide)⟩

/-- C10 (confirmed): every reachable state keeps all 9 coordinates within
Chebyshev radius 1 of the player materialised, so a click within Manhattan
distance 1 (a subset of that square) never finds an absent tile, and a click
beyond distance 1 only appends the out-of-range warning, touching nothing
else. -/
theorem C10_radius_safety :
    ∀ s, Reachable s →
      (∀ x y : Int, (x - s.game.player.position.x).natAbs ≤ 1 →
          (y - s.game.player.position.y).natAbs ≤ 1 →
          (wlookup s.game.world ⟨x, y⟩).isSome = true) ∧
      (∀ x y : Int,
          (x - s.game.player.position.x).natAbs + (y - s.game.player.position.y).natAbs ≤ 1 →
          (wlookup s.game.world ⟨x, y⟩).isSome = true) ∧
      (∀ (x y : Int) (m : LogMeta),
          (x - s.game.player.position.x).natAbs + (y - s.game.player.position.y).natAbs > 1 →
          handleTileClick s x y m =
            { s with game := addLog m "Target out of range." LogType.warning s.game }) := by
  intro s hs
  have hr := (reachable_sessionOk hs).1.2
  refine ⟨hr, ?_, ?_⟩
  · intro x y hxy
    exact hr x y (by omega) (by omega)
  · intro x y m hd
    unfold handleTileClick
    dsimp only
    rw [if_pos hd]

/-- C10 witness: in the freshly started session the neighbouring tile (1,0)
is materialised, and a click on the out-of-range tile (2,0) only logs the
warning. -/
theorem C10_witness :
    (wlookup runA0.game.world ⟨1, 0⟩).isSome = true ∧
    handleTileClick runA0 2 0 mA =
      { runA0 with game := addLog mA "Target out of range." LogType.warning runA0.game } := by
  obtain ⟨h1, _, h3⟩ := C10_radius_safety runA0 (Reachable.init rnd1 0)
  exact ⟨h1 1 0 (by decide) (by decide), h3 2 0 mA (by decide)⟩
